import Mathlib

/-!
Verification of the device-session subsystem of the prop-teststand server.

The definitions below are a shallow embedding of the Python sources:
  * `libqretprop/protocol.py`          (wire codec)
  * `libqretprop/DeviceControllers/deviceTools.py` (registry, sessions, commands)
  * `libqretprop/Devices/SensorMonitor.py`         (per-device data buffers)
  * `libqretprop/mylogging.py`         (log facade)

Modelling conventions:
  * Byte strings are `List Nat`, each entry standing for one byte (0..255).
  * `struct` packing/unpacking is mirrored exactly: big-endian, with the
    same out-of-range failures (`struct.error`) and `ValueError` paths.
    Bit masks such as `(b >> 4) & 0xF` are rendered with the equivalent
    division/modulus arithmetic on `Nat`.
  * A Python `float` carried in the DATA packet is represented by the
    IEEE-754 binary32 bit pattern that `struct.pack(">f", x)` puts on the
    wire (a `Nat` below `2^32`); `struct` transmits exactly those 4 bytes
    big-endian and `unpack` reads them back unchanged.
  * The `config_json` string of the CONFIG packet is represented by its UTF-8
    byte encoding (a `List Nat`); `str.encode("utf-8")` / `bytes.decode`
    are mutually inverse on the values the program produces.
  * Fallible operations return `Option` or `Except`.
-/

namespace PropTeststand

/-- Error kinds raised by the Python codec: `ValueError` (short header, bad
magic, unknown enum code) versus `struct.error` (payload slice of the wrong
size).  The session loop treats the two differently. -/
inductive DErr where
  | valueError
  | structError
deriving DecidableEq, Repr

/-- Big-endian 4-byte encoding, mirroring `struct.pack(">I", v)`. -/
def be4 (v : Nat) : List Nat :=
  [v / 2 ^ 24 % 256, v / 2 ^ 16 % 256, v / 2 ^ 8 % 256, v % 256]

/-- Big-endian 8-byte encoding, mirroring `struct.pack(">Q", v)`. -/
def be8 (v : Nat) : List Nat :=
  [v / 2 ^ 56 % 256, v / 2 ^ 48 % 256, v / 2 ^ 40 % 256, v / 2 ^ 32 % 256,
   v / 2 ^ 24 % 256, v / 2 ^ 16 % 256, v / 2 ^ 8 % 256, v % 256]

/-- Big-endian read of a byte list, mirroring `struct.unpack` of an
unsigned big-endian field. -/
def rd (bs : List Nat) : Nat := bs.foldl (fun a b => a * 256 + b) 0

theorem be4_length (v : Nat) : (be4 v).length = 4 := rfl

theorem be8_length (v : Nat) : (be8 v).length = 8 := rfl

theorem rd_be4 (v : Nat) (h : v < 2 ^ 32) : rd (be4 v) = v := by
  simp only [rd, be4, List.foldl]
  omega

theorem rd_be8 (v : Nat) (h : v < 2 ^ 64) : rd (be8 v) = v := by
  simp only [rd, be8, List.foldl]
  omega

/-- `PacketType` enumeration from `protocol.py`. -/
inductive PacketType where
  | estop
  | discovery
  | timesync
  | control
  | status_request
  | stream_start
  | stream_stop
  | get_single
  | heartbeat
  | config
  | data
  | status
  | ack
  | nack
deriving DecidableEq, Repr

/-- Wire code of each packet type (the `IntEnum` values). -/
def PacketType.toCode : PacketType → Nat
  | .estop => 0x00
  | .discovery => 0x01
  | .timesync => 0x02
  | .control => 0x03
  | .status_request => 0x04
  | .stream_start => 0x05
  | .stream_stop => 0x06
  | .get_single => 0x07
  | .heartbeat => 0x08
  | .config => 0x10
  | .data => 0x11
  | .status => 0x12
  | .ack => 0x13
  | .nack => 0x14

/-- `PacketType(x)` conversion: fails with `ValueError` on unassigned codes. -/
def PacketType.ofCode : Nat → Option PacketType
  | 0x00 => some .estop
  | 0x01 => some .discovery
  | 0x02 => some .timesync
  | 0x03 => some .control
  | 0x04 => some .status_request
  | 0x05 => some .stream_start
  | 0x06 => some .stream_stop
  | 0x07 => some .get_single
  | 0x08 => some .heartbeat
  | 0x10 => some .config
  | 0x11 => some .data
  | 0x12 => some .status
  | 0x13 => some .ack
  | 0x14 => some .nack
  | _ => none

theorem packetType_ofCode_toCode (t : PacketType) : PacketType.ofCode t.toCode = some t := by
  cases t <;> rfl

/-- `ControlState` enumeration (CLOSED = 0, OPEN = 1, ERROR = 255).  The
`OPEN` member is spelled `opened` because `open` is reserved in Lean. -/
inductive ControlState where
  | closed
  | opened
  | error
deriving DecidableEq, Repr

def ControlState.toCode : ControlState → Nat
  | .closed => 0
  | .opened => 1
  | .error => 255

def ControlState.ofCode : Nat → Option ControlState
  | 0 => some .closed
  | 1 => some .opened
  | 255 => some .error
  | _ => none

theorem controlState_ofCode_toCode (c : ControlState) : ControlState.ofCode c.toCode = some c := by
  cases c <;> rfl

/-- `DeviceStatus` enumeration. -/
inductive DeviceStatus where
  | inactive
  | active
  | error
  | calibrating
deriving DecidableEq, Repr

def DeviceStatus.toCode : DeviceStatus → Nat
  | .inactive => 0
  | .active => 1
  | .error => 2
  | .calibrating => 3

def DeviceStatus.ofCode : Nat → Option DeviceStatus
  | 0 => some .inactive
  | 1 => some .active
  | 2 => some .error
  | 3 => some .calibrating
  | _ => none

theorem deviceStatus_ofCode_toCode (s : DeviceStatus) : DeviceStatus.ofCode s.toCode = some s := by
  cases s <;> rfl

/-- `Unit` enumeration of `protocol.py` (renamed: `Unit` is taken in Lean). -/
inductive SensorUnit where
  | volts
  | amps
  | celsius
  | fahrenheit
  | kelvin
  | psi
  | bar
  | pascalU
  | grams
  | kilograms
  | pounds
  | newtons
  | seconds
  | milliseconds
  | hertz
  | percent
  | unitless
deriving DecidableEq, Repr

def SensorUnit.toCode : SensorUnit → Nat
  | .volts => 0x00
  | .amps => 0x01
  | .celsius => 0x02
  | .fahrenheit => 0x03
  | .kelvin => 0x04
  | .psi => 0x05
  | .bar => 0x06
  | .pascalU => 0x07
  | .grams => 0x08
  | .kilograms => 0x09
  | .pounds => 0x0A
  | .newtons => 0x0B
  | .seconds => 0x0C
  | .milliseconds => 0x0D
  | .hertz => 0x0E
  | .percent => 0x0F
  | .unitless => 0xFF

def SensorUnit.ofCode : Nat → Option SensorUnit
  | 0x00 => some .volts
  | 0x01 => some .amps
  | 0x02 => some .celsius
  | 0x03 => some .fahrenheit
  | 0x04 => some .kelvin
  | 0x05 => some .psi
  | 0x06 => some .bar
  | 0x07 => some .pascalU
  | 0x08 => some .grams
  | 0x09 => some .kilograms
  | 0x0A => some .pounds
  | 0x0B => some .newtons
  | 0x0C => some .seconds
  | 0x0D => some .milliseconds
  | 0x0E => some .hertz
  | 0x0F => some .percent
  | 0xFF => some .unitless
  | _ => none

theorem sensorUnit_ofCode_toCode (u : SensorUnit) : SensorUnit.ofCode u.toCode = some u := by
  cases u <;> rfl

/-- `MAGIC_NUMBER = 0x5` in `protocol.py`. -/
def MAGIC_NUMBER : Nat := 0x5

/-- `PROTOCOL_VERSION = 1` in `protocol.py`. -/
def PROTOCOL_VERSION : Nat := 1

/-- Common packet header (format `>BBI`, 6 bytes): byte 0 packs the magic in
the high nibble and the version in the low nibble, byte 1 is the packet
type, bytes 2-5 the big-endian timestamp (ms since midnight). -/
structure PacketHeader where
  magic : Nat
  version : Nat
  packet_type : PacketType
  timestamp : Nat
deriving DecidableEq, Repr

/-- `PacketHeader.SIZE = struct.calcsize(">BBI") = 6`. -/
def PacketHeader.SIZE : Nat := 6

/-- `PacketHeader.pack`: `((magic & 0xF) << 4) | (version & 0xF)` is the
first byte (written here as `(magic % 16) * 16 + version % 16`, the same
value since the two nibbles do not overlap); `struct.pack(">BBI", ...)`
fails when the timestamp does not fit an unsigned 32-bit field. -/
def PacketHeader.pack (h : PacketHeader) : Option (List Nat) :=
  if h.timestamp < 2 ^ 32 then
    some ((h.magic % 16 * 16 + h.version % 16) :: h.packet_type.toCode :: be4 h.timestamp)
  else
    none

/-- `PacketHeader.unpack`: requires at least 6 bytes (`ValueError`
otherwise), extracts magic `(b0 >> 4) & 0xF` and version `b0 & 0xF`,
rejects a wrong magic with `ValueError`, and converts the type code with
`PacketType(...)` which is a `ValueError` on unknown codes. -/
def PacketHeader.unpack : List Nat → Except DErr PacketHeader
  | b0 :: b1 :: b2 :: b3 :: b4 :: b5 :: _ =>
    let magic := b0 / 16 % 16
    let version := b0 % 16
    if magic ≠ MAGIC_NUMBER then .error .valueError
    else
      match PacketType.ofCode b1 with
      | none => .error .valueError
      | some pt => .ok ⟨magic, version, pt, rd [b2, b3, b4, b5]⟩
  | _ => .error .valueError

/-- Tagged union of the packet dataclasses of `protocol.py`.  One
constructor per Python class; `SimplePacket` covers ESTOP, STREAM_STOP,
GET_SINGLE, HEARTBEAT and STATUS_REQUEST, and `AckPacket` covers both ACK
and NACK, exactly as in the source. -/
inductive Packet where
  | discoveryP (header : PacketHeader)
  | timesyncP (header : PacketHeader) (server_time_ms : Nat)
  | controlP (header : PacketHeader) (command_id : Nat) (command_state : ControlState)
  | dataP (header : PacketHeader) (sensor_id : Nat) (unit : SensorUnit) (value32 : Nat)
  | statusP (header : PacketHeader) (status : DeviceStatus)
  | configP (header : PacketHeader) (config_json : List Nat)
  | streamStartP (header : PacketHeader) (frequency_hz : Nat)
  | simpleP (header : PacketHeader)
  | ackP (header : PacketHeader) (ack_packet_type : PacketType)
deriving DecidableEq, Repr

/-- The `header` field common to every packet class. -/
def Packet.header : Packet → PacketHeader
  | .discoveryP h => h
  | .timesyncP h _ => h
  | .controlP h _ _ => h
  | .dataP h _ _ _ => h
  | .statusP h _ => h
  | .configP h _ => h
  | .streamStartP h _ => h
  | .simpleP h => h
  | .ackP h _ => h

/-- `pack` of every packet class: the packed header followed by the
payload of the class.  `struct.pack` range failures are mirrored: `>Q`
needs the value below `2^64`, `>B` below `256`, `>I` below `2^32`, and
the DATA value is the 4-byte binary32 pattern. -/
def Packet.pack : Packet → Option (List Nat)
  | .discoveryP h => h.pack
  | .timesyncP h st =>
      h.pack.bind fun hb => if st < 2 ^ 64 then some (hb ++ be8 st) else none
  | .controlP h cid cs =>
      h.pack.bind fun hb => if cid < 256 then some (hb ++ [cid, cs.toCode]) else none
  | .dataP h sid u v =>
      h.pack.bind fun hb =>
        if sid < 256 ∧ v < 2 ^ 32 then some (hb ++ [sid, u.toCode] ++ be4 v) else none
  | .statusP h s => h.pack.bind fun hb => some (hb ++ [s.toCode])
  | .configP h js =>
      h.pack.bind fun hb => if js.length < 2 ^ 32 then some (hb ++ be4 js.length ++ js) else none
  | .streamStartP h f =>
      h.pack.bind fun hb => if f < 256 then some (hb ++ [f]) else none
  | .simpleP h => h.pack
  | .ackP h t => h.pack.bind fun hb => some (hb ++ [t.toCode])

/-- `decode_packet` of `protocol.py`: rejects buffers shorter than the
header (`ValueError`), unpacks the header, dispatches on the packet type
through `packet_map`, and runs the class `unpack`.  Each class `unpack`
slices `data[6 : 6+k]` and feeds it to `struct.unpack`, which raises
`struct.error` when the slice is shorter than the format; enum conversions
(`ControlState(...)`, `Unit(...)`, `DeviceStatus(...)`, `PacketType(...)`)
raise `ValueError` on unknown codes.  `ConfigPacket.unpack` reads a 4-byte
length and then takes that many bytes by slicing, which silently yields a
shorter string when the buffer ends early. -/
def decode_packet (bs : List Nat) : Except DErr Packet :=
  if bs.length < PacketHeader.SIZE then .error .valueError
  else
    match PacketHeader.unpack bs with
    | .error e => .error e
    | .ok h =>
      match h.packet_type with
      | .estop | .stream_stop | .get_single | .heartbeat | .status_request => .ok (.simpleP h)
      | .discovery => .ok (.discoveryP h)
      | .timesync =>
        match (bs.drop 6).take 8 with
        | [a, b, c, d, e, f, g, i] => .ok (.timesyncP h (rd [a, b, c, d, e, f, g, i]))
        | _ => .error .structError
      | .control =>
        match (bs.drop 6).take 2 with
        | [cid, cs] =>
          match ControlState.ofCode cs with
          | some st => .ok (.controlP h cid st)
          | none => .error .valueError
        | _ => .error .structError
      | .data =>
        match (bs.drop 6).take 6 with
        | [sid, u, a, b, c, d] =>
          match SensorUnit.ofCode u with
          | some su => .ok (.dataP h sid su (rd [a, b, c, d]))
          | none => .error .valueError
        | _ => .error .structError
      | .status =>
        match (bs.drop 6).take 1 with
        | [s] =>
          match DeviceStatus.ofCode s with
          | some st => .ok (.statusP h st)
          | none => .error .valueError
        | _ => .error .structError
      | .config =>
        match (bs.drop 6).take 4 with
        | [a, b, c, d] => .ok (.configP h ((bs.drop 10).take (rd [a, b, c, d])))
        | _ => .error .structError
      | .stream_start =>
        match (bs.drop 6).take 1 with
        | [f] => .ok (.streamStartP h f)
        | _ => .error .structError
      | .ack | .nack =>
        match (bs.drop 6).take 1 with
        | [c] =>
          match PacketType.ofCode c with
          | some t => .ok (.ackP h t)
          | none => .error .valueError
        | _ => .error .structError

/-- `get_packet_size` of `protocol.py` (0 for variable-length CONFIG). -/
def get_packet_size : PacketType → Nat
  | .estop => 6
  | .discovery => 6
  | .timesync => 14
  | .control => 8
  | .data => 12
  | .status => 7
  | .config => 0
  | .stream_start => 7
  | .stream_stop => 6
  | .get_single => 6
  | .heartbeat => 6
  | .status_request => 6
  | .ack => 7
  | .nack => 7

/-- Whether a packet variant is the class that the `packet_map` of `decode_packet` assigns to the packet type carried in its own header. -/
def Packet.variantMatches : Packet → Bool
  | .discoveryP h => h.packet_type = .discovery
  | .timesyncP h _ => h.packet_type = .timesync
  | .controlP h _ _ => h.packet_type = .control
  | .dataP h _ _ _ => h.packet_type = .data
  | .statusP h _ => h.packet_type = .status
  | .configP h _ => h.packet_type = .config
  | .streamStartP h _ => h.packet_type = .stream_start
  | .simpleP h =>
      h.packet_type = .estop ∨ h.packet_type = .stream_stop ∨ h.packet_type = .get_single ∨
        h.packet_type = .heartbeat ∨ h.packet_type = .status_request
  | .ackP h _ => h.packet_type = .ack ∨ h.packet_type = .nack

/-!
Session framing loop, from `_monitorSingleDevice` in `deviceTools.py`:

```
buffer = b""
while True:
    data = await loop.sock_recv(device.socket, 1024)
    ...
    buffer += data
    while len(buffer) >= 10:  # Minimum packet size
        try:
            packet = decode_packet(buffer)
            packet_size = len(packet.pack())
            ... handlers ...
            buffer = buffer[packet_size:]
        except ValueError:
            break                  # comment in source: not enough data yet
        except Exception:
            buffer = buffer[1:]    # skip one byte and try again
```

`processBuffer` is the inner `while`; the fuel argument only bounds the
recursion (each iteration either stops or removes at least one byte, so
`buffer.length` fuel is always enough).  A `ValueError` breaks out keeping
the buffer; any other exception — in particular `struct.error` from a
payload slice of the wrong size, or a failing re-`pack` — discards one
byte.  `monitorChunks` folds the outer receive loop over a list of read
chunks, returning the decoded packets in order and the final buffer.
-/

def processBuffer : Nat → List Nat → List Packet × List Nat
  | 0, buffer => ([], buffer)
  | fuel + 1, buffer =>
    if buffer.length ≥ 10 then
      match decode_packet buffer with
      | .ok packet =>
        match packet.pack with
        | some bs =>
          let r := processBuffer fuel (buffer.drop bs.length)
          (packet :: r.1, r.2)
        | none => processBuffer fuel (buffer.drop 1)
      | .error .valueError => ([], buffer)
      | .error .structError => processBuffer fuel (buffer.drop 1)
    else ([], buffer)

/-- The receive loop of `_monitorSingleDevice` driven by a list of read
chunks: each chunk is appended to the buffer and the inner framing loop is
run to exhaustion. -/
def monitorChunks (chunks : List (List Nat)) : List Packet × List Nat :=
  chunks.foldl
    (fun acc chunk =>
      let buffer := acc.2 ++ chunk
      let r := processBuffer buffer.length buffer
      (acc.1 ++ r.1, r.2))
    ([], [])

/-!
Per-device sensor buffers, from `SensorMonitor` and the DATA branch of
`_monitorSingleDevice` (`deviceTools.py` lines 279-291):

```
sensor_names = list(device.sensors.keys())
if packet.sensor_id < len(sensor_names):
    sensor_name = sensor_names[packet.sensor_id]
    device.sensors[sensor_name].data.append(packet.data)
    if not device.times or len(device.times) < len(device.sensors[sensor_name].data):
        device.times.append(time.monotonic() - device.startTime)
```

`MonState.sensors` is the ordered list of per-sensor `data` buffers (the
values are the binary32 patterns carried by DATA packets) and
`MonState.times` the shared time axis.  The wall-clock reading
`time.monotonic() - device.startTime` is passed in as the `tnow`
argument. -/
structure MonState where
  sensors : List (List Nat)
  times : List Nat
deriving DecidableEq, Repr

/-- One application of the DATA branch for a reading
`(sensor_id, value)` at server clock `tnow`. -/
def processDataPacket (st : MonState) (sensor_id : Nat) (value : Nat) (tnow : Nat) : MonState :=
  if hlt : sensor_id < st.sensors.length then
    let d := st.sensors[sensor_id] ++ [value]
    let sensors := st.sensors.set sensor_id d
    let times :=
      if st.times = [] ∨ st.times.length < d.length then st.times ++ [tnow] else st.times
    ⟨sensors, times⟩
  else st

/-- A fresh `SensorMonitor` with `n` configured sensors: every `data`
buffer and the `times` list start empty. -/
def initMonState (n : Nat) : MonState := ⟨List.replicate n [], []⟩

/-- Run a sequence of DATA packets `(sensor_id, value, tnow)` through the
DATA branch. -/
def runDataPackets (st : MonState) (steps : List (Nat × Nat × Nat)) : MonState :=
  steps.foldl (fun s p => processDataPacket s p.1 p.2.1 p.2.2) st

/-- Length of the longest per-sensor data buffer. -/
def maxLen (ls : List (List Nat)) : Nat := (ls.map List.length).foldr max 0

/-!
Device registry, from `deviceTools.py`.  `deviceRegistry` is a Python
`dict[str, ESPDevice]`; insertion order is preserved, assignment to an
existing key replaces the value in place, and `pop` removes the key.  The
registry is modelled as an association list with those dict semantics; the
device objects themselves are opaque here (any type with decidable
equality serves as `Dev`).
-/

/-- `key in dict`. -/
def dictMem {Dev : Type} (k : String) (m : List (String × Dev)) : Bool :=
  m.any fun p => p.1 = k

/-- `dict[key] = value`: replaces in place when the key exists, appends
otherwise. -/
def dictInsert {Dev : Type} (k : String) (v : Dev) (m : List (String × Dev)) :
    List (String × Dev) :=
  if dictMem k m then m.map (fun p => if p.1 = k then (k, v) else p) else m ++ [(k, v)]

/-- `dict.get(key)`. -/
def dictGet {Dev : Type} (k : String) (m : List (String × Dev)) : Option Dev :=
  (m.find? fun p => p.1 = k).map Prod.snd

/-- `dict.pop(key)`. -/
def dictPop {Dev : Type} (k : String) (m : List (String × Dev)) : List (String × Dev) :=
  m.filter fun p => ¬ p.1 = k

/-- Registration step of `connectToDevice` (`deviceTools.py` lines 59-87):
`if deviceIP in deviceRegistry: ... return` refuses an address that is
already present, leaving the registry untouched; otherwise
`deviceRegistry[deviceIP] = newDevice` inserts the new device. -/
def connectToDeviceRegister {Dev : Type} (reg : List (String × Dev)) (deviceIP : String)
    (newDevice : Dev) : List (String × Dev) :=
  if dictMem deviceIP reg then reg else dictInsert deviceIP newDevice reg

/-- Registration step of `tcpListener` (`deviceTools.py` lines 131-166):
after decoding a CONFIG packet it executes
`deviceRegistry[deviceIP] = newDevice` with no membership check, so an
existing entry for the same address is overwritten. -/
def tcpListenerRegister {Dev : Type} (reg : List (String × Dev)) (deviceIP : String)
    (newDevice : Dev) : List (String × Dev) :=
  dictInsert deviceIP newDevice reg

/-!
Command API error paths, from `deviceTools.py`.  `getSingle`,
`startStreaming`, `stopStreaming` and `setControl` all wrap the socket
write in the same handler:

```
except Exception as e:
    ml.elog(...)
    if device.address in deviceRegistry:
        _removed = deviceRegistry.pop(device.address)
        ml.slog(...)
```

No `listenerTask.cancel()` appears in any of these handlers (contrast
`closeDeviceConnections`, which does cancel).  The Boolean in the result
records whether the handler cancelled the session task. -/
def sendErrorCleanup {Dev : Type} (reg : List (String × Dev)) (addr : String) :
    List (String × Dev) × Bool :=
  (if dictMem addr reg then dictPop addr reg else reg, false)

/-- Result of a `startStreaming` call. -/
inductive StreamResult where
  | refused
  | noSocket
  | sent (bytes : List Nat)
  | packFailedRemoved
deriving DecidableEq, Repr

/-- `startStreaming(device, Hz)` (`deviceTools.py` lines 386-422): the
guard `if not Hz or Hz < 1 or Hz > 1000` refuses 0 and everything above
1000 (for `Nat` frequencies `not Hz` means `Hz == 0`, subsumed by
`Hz < 1`); with a live socket it builds
`StreamStartPacket.create(frequency_hz=Hz)` — header magic
`MAGIC_NUMBER`, version `PROTOCOL_VERSION`, type STREAM_START, timestamp
`ts` — and calls `pack()` before any write.  A `pack()` failure lands in
the generic handler, which pops the device from the registry; on success
the packed bytes are written.  Returns the outcome and the new
registry. -/
def startStreaming {Dev : Type} (socketAlive : Bool) (reg : List (String × Dev))
    (addr : String) (Hz : Nat) (ts : Nat) : StreamResult × List (String × Dev) :=
  if Hz < 1 ∨ Hz > 1000 then (.refused, reg)
  else if socketAlive then
    match Packet.pack (.streamStartP ⟨MAGIC_NUMBER, PROTOCOL_VERSION, .stream_start, ts⟩ Hz) with
    | some bs => (.sent bs, reg)
    | none => (.packFailedRemoved, (sendErrorCleanup reg addr).1)
  else (.noSocket, reg)

/-!
Log facade, from `mylogging.py`.  `_publishLog` raises
`ValueError("Logger not initialized. Call initLogger() first.")` when the
module-level `redisClient` is `None`; otherwise it builds the coloured,
timestamped string and publishes it.  The Redis client is opaque (`Nat`),
the wall-clock timestamp string is passed in, and a successful publish
returns the `(channel, logString)` pair handed to `redisClient.publish`.
-/
def publishLog (redisClient : Option Nat) (timestampStr : String) (channel : String)
    (message : String) (color : String) : Except String (String × String) :=
  match redisClient with
  | none => .error "Logger not initialized. Call initLogger() first."
  | some _ =>
    let timestamp_str := "\x1b[90m[" ++ timestampStr ++ "]\x1b[0m"
    let message_str :=
      if color = "grey" then "\x1b[90m" ++ message ++ "\x1b[0m"
      else if color = "red" then "\x1b[91m" ++ message ++ "\x1b[0m"
      else if color = "yellow" then "\x1b[93m" ++ message ++ "\x1b[0m"
      else message
    .ok (channel, timestamp_str ++ " " ++ message_str)

/-! ### Codec lemmas -/

theorem PacketHeader.pack_eq (h : PacketHeader) (hb : List Nat) (hp : h.pack = some hb) :
    h.timestamp < 2 ^ 32 ∧
      hb = (h.magic % 16 * 16 + h.version % 16) :: h.packet_type.toCode :: be4 h.timestamp := by
  unfold PacketHeader.pack at hp
  split at hp
  · exact ⟨by assumption, by injection hp with h2; exact h2.symm⟩
  · exact absurd hp (by simp)

theorem PacketHeader.pack_length (h : PacketHeader) (hb : List Nat) (hp : h.pack = some hb) :
    hb.length = 6 := by
  obtain ⟨-, rfl⟩ := PacketHeader.pack_eq h hb hp
  simp [be4]

theorem PacketHeader.unpack_append (h : PacketHeader) (hb rest : List Nat)
    (hm : h.magic = MAGIC_NUMBER) (hv : h.version < 16) (hp : h.pack = some hb) :
    PacketHeader.unpack (hb ++ rest) = .ok h := by
  obtain ⟨hts, rfl⟩ := PacketHeader.pack_eq h hb hp
  obtain ⟨magic, version, pt, ts⟩ := h
  simp only at hm hv hts
  subst hm
  simp only [MAGIC_NUMBER] at *
  unfold PacketHeader.unpack
  simp only [be4, List.cons_append, List.nil_append]
  have h1 : (5 % 16 * 16 + version % 16) / 16 % 16 = 5 := by omega
  have h2 : 5 % 16 * 16 + version % 16 = 5 * 16 + version := by omega
  rw [h2]
  have h3 : (5 * 16 + version) / 16 % 16 = 5 := by omega
  have h4 : (5 * 16 + version) % 16 = version := by omega
  simp only [h3, h4, ne_eq, not_true_eq_false, if_false, packetType_ofCode_toCode]
  have h5 : rd [ts / 16777216 % 256, ts / 65536 % 256, ts / 256 % 256, ts % 256] = ts := by
    simp only [rd, List.foldl]
    omega
  simp [MAGIC_NUMBER, h5]

theorem drop_exact (xs rest : List Nat) (n : Nat) (hlen : xs.length = n) :
    (xs ++ rest).drop n = rest := by
  rw [← hlen, List.drop_left]

theorem take_exact (xs rest : List Nat) (n : Nat) (hlen : xs.length = n) :
    (xs ++ rest).take n = xs := by
  rw [← hlen, List.take_left]

theorem not_short (hb rest : List Nat) (hlen : hb.length = 6) :
    ¬ (hb ++ rest).length < PacketHeader.SIZE := by
  simp [PacketHeader.SIZE, List.length_append, hlen]

/-- The codec roundtrip that actually holds on the code: a packet whose
header magic is `MAGIC_NUMBER`, whose version fits the 4-bit field, and
whose variant (Python class) is the one `decode_packet` dispatches to for
its own `packet_type`, decodes from its packed bytes back to itself. -/
theorem packet_roundtrip (p : Packet) (bs : List Nat)
    (hm : p.header.magic = MAGIC_NUMBER) (hv : p.header.version < 16)
    (hvm : p.variantMatches = true) (hp : p.pack = some bs) :
    decode_packet bs = .ok p := by
  cases p with
  | discoveryP h =>
    simp only [Packet.header] at hm hv
    simp only [Packet.variantMatches, decide_eq_true_eq] at hvm
    have hl := PacketHeader.pack_length h bs hp
    have hbs : bs = bs ++ [] := by simp
    rw [hbs]
    unfold decode_packet
    rw [if_neg (not_short bs [] hl), PacketHeader.unpack_append h bs [] hm hv hp]
    dsimp only
    rw [hvm]
  | simpleP h =>
    simp only [Packet.header] at hm hv
    simp only [Packet.variantMatches, decide_eq_true_eq] at hvm
    have hl := PacketHeader.pack_length h bs hp
    have hbs : bs = bs ++ [] := by simp
    rw [hbs]
    unfold decode_packet
    rw [if_neg (not_short bs [] hl), PacketHeader.unpack_append h bs [] hm hv hp]
    dsimp only
    rcases hvm with hpt | hpt | hpt | hpt | hpt <;> rw [hpt]
  | timesyncP h st =>
    simp only [Packet.header] at hm hv
    simp only [Packet.variantMatches, decide_eq_true_eq] at hvm
    simp only [Packet.pack] at hp
    cases hpk : h.pack with
    | none => rw [hpk] at hp; simp at hp
    | some hb =>
      rw [hpk] at hp
      simp only [Option.bind] at hp
      split at hp
      case isTrue hst =>
        injection hp with hp
        subst hp
        have hl := PacketHeader.pack_length h hb hpk
        unfold decode_packet
        rw [if_neg (not_short hb (be8 st) hl),
          PacketHeader.unpack_append h hb (be8 st) hm hv hpk]
        dsimp only
        rw [hvm, drop_exact hb (be8 st) 6 hl]
        have hrd : rd [st / 72057594037927936 % 256, st / 281474976710656 % 256,
            st / 1099511627776 % 256, st / 4294967296 % 256, st / 16777216 % 256,
            st / 65536 % 256, st / 256 % 256, st % 256] = st := by
          simp only [rd, List.foldl]
          omega
        simp [be8, hrd]
      case isFalse => exact absurd hp (by simp)
  | controlP h cid cs =>
    simp only [Packet.header] at hm hv
    simp only [Packet.variantMatches, decide_eq_true_eq] at hvm
    simp only [Packet.pack] at hp
    cases hpk : h.pack with
    | none => rw [hpk] at hp; simp at hp
    | some hb =>
      rw [hpk] at hp
      simp only [Option.bind] at hp
      split at hp
      case isTrue hcid =>
        injection hp with hp
        subst hp
        have hl := PacketHeader.pack_length h hb hpk
        unfold decode_packet
        rw [if_neg (not_short hb [cid, cs.toCode] hl),
          PacketHeader.unpack_append h hb [cid, cs.toCode] hm hv hpk]
        dsimp only
        rw [hvm, drop_exact hb [cid, cs.toCode] 6 hl]
        simp [controlState_ofCode_toCode]
      case isFalse => exact absurd hp (by simp)
  | dataP h sid u v =>
    simp only [Packet.header] at hm hv
    simp only [Packet.variantMatches, decide_eq_true_eq] at hvm
    simp only [Packet.pack] at hp
    cases hpk : h.pack with
    | none => rw [hpk] at hp; simp at hp
    | some hb =>
      rw [hpk] at hp
      simp only [Option.bind] at hp
      split at hp
      case isTrue hrange =>
        injection hp with hp
        subst hp
        obtain ⟨hsid, hval⟩ := hrange
        have hl := PacketHeader.pack_length h hb hpk
        rw [List.append_assoc]
        unfold decode_packet
        rw [if_neg (not_short hb ([sid, u.toCode] ++ be4 v) hl),
          PacketHeader.unpack_append h hb ([sid, u.toCode] ++ be4 v) hm hv hpk]
        dsimp only
        rw [hvm, drop_exact hb ([sid, u.toCode] ++ be4 v) 6 hl]
        have hrd : rd [v / 16777216 % 256, v / 65536 % 256, v / 256 % 256, v % 256] = v := by
          simp only [rd, List.foldl]
          omega
        simp [be4, sensorUnit_ofCode_toCode, hrd]
      case isFalse => exact absurd hp (by simp)
  | statusP h s =>
    simp only [Packet.header] at hm hv
    simp only [Packet.variantMatches, decide_eq_true_eq] at hvm
    simp only [Packet.pack] at hp
    cases hpk : h.pack with
    | none => rw [hpk] at hp; simp at hp
    | some hb =>
      rw [hpk] at hp
      simp only [Option.bind] at hp
      injection hp with hp
      subst hp
      have hl := PacketHeader.pack_length h hb hpk
      unfold decode_packet
      rw [if_neg (not_short hb [s.toCode] hl),
        PacketHeader.unpack_append h hb [s.toCode] hm hv hpk]
      dsimp only
      rw [hvm, drop_exact hb [s.toCode] 6 hl]
      simp [deviceStatus_ofCode_toCode]
  | configP h js =>
    simp only [Packet.header] at hm hv
    simp only [Packet.variantMatches, decide_eq_true_eq] at hvm
    simp only [Packet.pack] at hp
    cases hpk : h.pack with
    | none => rw [hpk] at hp; simp at hp
    | some hb =>
      rw [hpk] at hp
      simp only [Option.bind] at hp
      split at hp
      case isTrue hjl =>
        injection hp with hp
        subst hp
        have hl := PacketHeader.pack_length h hb hpk
        have hl10 : (hb ++ be4 js.length).length = 10 := by
          simp [List.length_append, hl, be4]
        rw [List.append_assoc]
        unfold decode_packet
        rw [if_neg (not_short hb (be4 js.length ++ js) hl),
          PacketHeader.unpack_append h hb (be4 js.length ++ js) hm hv hpk]
        dsimp only
        rw [hvm, drop_exact hb (be4 js.length ++ js) 6 hl]
        have hrd : rd [js.length / 16777216 % 256, js.length / 65536 % 256,
            js.length / 256 % 256, js.length % 256] = js.length := by
          simp only [rd, List.foldl]
          omega
        have hdrop10 : (hb ++ (be4 js.length ++ js)).drop 10 = js := by
          have hd := drop_exact (hb ++ be4 js.length) js 10 hl10
          rwa [List.append_assoc] at hd
        simp only [be4, List.cons_append, List.nil_append] at hdrop10
        norm_num at hdrop10
        simp [be4, hrd, hdrop10, List.take_length]
      case isFalse => exact absurd hp (by simp)
  | streamStartP h f =>
    simp only [Packet.header] at hm hv
    simp only [Packet.variantMatches, decide_eq_true_eq] at hvm
    simp only [Packet.pack] at hp
    cases hpk : h.pack with
    | none => rw [hpk] at hp; simp at hp
    | some hb =>
      rw [hpk] at hp
      simp only [Option.bind] at hp
      split at hp
      case isTrue hf =>
        injection hp with hp
        subst hp
        have hl := PacketHeader.pack_length h hb hpk
        unfold decode_packet
        rw [if_neg (not_short hb [f] hl),
          PacketHeader.unpack_append h hb [f] hm hv hpk]
        dsimp only
        rw [hvm, drop_exact hb [f] 6 hl]
        rfl
      case isFalse => exact absurd hp (by simp)
  | ackP h t =>
    simp only [Packet.header] at hm hv
    simp only [Packet.variantMatches, decide_eq_true_eq] at hvm
    simp only [Packet.pack] at hp
    cases hpk : h.pack with
    | none => rw [hpk] at hp; simp at hp
    | some hb =>
      rw [hpk] at hp
      simp only [Option.bind] at hp
      injection hp with hp
      subst hp
      have hl := PacketHeader.pack_length h hb hpk
      unfold decode_packet
      rw [if_neg (not_short hb [t.toCode] hl),
        PacketHeader.unpack_append h hb [t.toCode] hm hv hpk]
      dsimp only
      rcases hvm with hpt | hpt <;>
        rw [hpt, drop_exact hb [t.toCode] 6 hl] <;>
        simp [packetType_ofCode_toCode]

/-- Every successful `pack` is the packed header followed by the payload
bytes of the class. -/
theorem Packet.pack_split (p : Packet) (bs : List Nat) (hp : p.pack = some bs) :
    ∃ hb rest, p.header.pack = some hb ∧ bs = hb ++ rest := by
  cases p with
  | discoveryP h => exact ⟨bs, [], hp, by simp⟩
  | simpleP h => exact ⟨bs, [], hp, by simp⟩
  | timesyncP h st =>
    simp only [Packet.pack] at hp
    cases hpk : h.pack with
    | none => rw [hpk] at hp; simp at hp
    | some hb =>
      rw [hpk] at hp
      simp only [Option.bind] at hp
      split at hp
      · injection hp with hp
        exact ⟨hb, be8 st, hpk, hp.symm⟩
      · exact absurd hp (by simp)
  | controlP h cid cs =>
    simp only [Packet.pack] at hp
    cases hpk : h.pack with
    | none => rw [hpk] at hp; simp at hp
    | some hb =>
      rw [hpk] at hp
      simp only [Option.bind] at hp
      split at hp
      · injection hp with hp
        exact ⟨hb, [cid, cs.toCode], hpk, hp.symm⟩
      · exact absurd hp (by simp)
  | dataP h sid u v =>
    simp only [Packet.pack] at hp
    cases hpk : h.pack with
    | none => rw [hpk] at hp; simp at hp
    | some hb =>
      rw [hpk] at hp
      simp only [Option.bind] at hp
      split at hp
      · injection hp with hp
        exact ⟨hb, [sid, u.toCode] ++ be4 v, hpk, by rw [← hp, List.append_assoc]⟩
      · exact absurd hp (by simp)
  | statusP h s =>
    simp only [Packet.pack] at hp
    cases hpk : h.pack with
    | none => rw [hpk] at hp; simp at hp
    | some hb =>
      rw [hpk] at hp
      simp only [Option.bind] at hp
      injection hp with hp
      exact ⟨hb, [s.toCode], hpk, hp.symm⟩
  | configP h js =>
    simp only [Packet.pack] at hp
    cases hpk : h.pack with
    | none => rw [hpk] at hp; simp at hp
    | some hb =>
      rw [hpk] at hp
      simp only [Option.bind] at hp
      split at hp
      · injection hp with hp
        exact ⟨hb, be4 js.length ++ js, hpk, by rw [← hp, List.append_assoc]⟩
      · exact absurd hp (by simp)
  | streamStartP h f =>
    simp only [Packet.pack] at hp
    cases hpk : h.pack with
    | none => rw [hpk] at hp; simp at hp
    | some hb =>
      rw [hpk] at hp
      simp only [Option.bind] at hp
      split at hp
      · injection hp with hp
        exact ⟨hb, [f], hpk, hp.symm⟩
      · exact absurd hp (by simp)
  | ackP h t =>
    simp only [Packet.pack] at hp
    cases hpk : h.pack with
    | none => rw [hpk] at hp; simp at hp
    | some hb =>
      rw [hpk] at hp
      simp only [Option.bind] at hp
      injection hp with hp
      exact ⟨hb, [t.toCode], hpk, hp.symm⟩

/-! ### Claim C1 — codec roundtrip -/

/-- C1 (counterexample).  The claim `decode_packet(pack(p)) == p` for every
constructible packet fails: `SimplePacket.create(PacketType.DISCOVERY)` is
constructible (the `create` classmethod accepts any packet type), its bytes
decode successfully, but `decode_packet` dispatches the DISCOVERY type to
`DiscoveryPacket`, a different dataclass, so the result compares unequal to
the original packet. -/
theorem c1_counterexample :
    Packet.pack (.simpleP ⟨5, 1, .discovery, 0⟩) = some [81, 1, 0, 0, 0, 0] ∧
    decode_packet [81, 1, 0, 0, 0, 0] = .ok (.discoveryP ⟨5, 1, .discovery, 0⟩) ∧
    Packet.discoveryP ⟨5, 1, .discovery, 0⟩ ≠ Packet.simpleP ⟨5, 1, .discovery, 0⟩ := by
  refine ⟨by decide, by rfl, by decide⟩

/-- C1 (amended).  `decode_packet(pack(p)) == p` holds for every packet
whose header magic is `MAGIC_NUMBER` (0x5), whose version fits the 4-bit
field, whose fields are in range for their struct formats (so `pack`
succeeds), and whose dataclass is the one `decode_packet` dispatches to for
the packet type in its header; the DATA value is the binary32 pattern put
on the wire. -/
theorem c1_codec_roundtrip (p : Packet) (bs : List Nat)
    (hm : p.header.magic = MAGIC_NUMBER) (hv : p.header.version < 16)
    (hvm : p.variantMatches = true) (hp : p.pack = some bs) :
    decode_packet bs = .ok p :=
  packet_roundtrip p bs hm hv hvm hp

/-- C1 witness: the roundtrip theorem applied to a concrete DATA packet
(sensor 3, unit FAHRENHEIT, value bits 0x41200000 = 10.0f). -/
theorem c1_codec_roundtrip_witness :
    decode_packet [81, 17, 0, 0, 0, 42, 3, 3, 65, 32, 0, 0] =
      .ok (.dataP ⟨5, 1, .data, 42⟩ 3 .fahrenheit 1092616192) :=
  c1_codec_roundtrip (.dataP ⟨5, 1, .data, 42⟩ 3 .fahrenheit 1092616192)
    [81, 17, 0, 0, 0, 42, 3, 3, 65, 32, 0, 0] (by decide) (by decide) (by decide) (by decide)

/-! ### Claim C3 — packet header layout -/

/-- C3 (counterexample).  The claim describes a 9-byte header starting with
a version byte equal to 2 and carrying a u16 length field.  The encoder
actually emits a 6-byte header: packing `SimplePacket` for ESTOP with
timestamp 0 yields exactly 6 bytes whose first byte is 0x51 (magic 5 in the
high nibble, version 1 in the low nibble), not 2, and there is no room for
any length field. -/
theorem c3_counterexample :
    Packet.pack (.simpleP ⟨5, 1, .estop, 0⟩) = some [81, 0, 0, 0, 0, 0] ∧
    ¬ (9 ≤ [81, 0, 0, 0, 0, 0].length ∧ [81, 0, 0, 0, 0, 0].head? = some 2) := by
  refine ⟨by decide, by decide⟩

/-- C3 (amended).  The encoding of every packet begins with the fixed 6-byte
header of `protocol.py`: byte 0 packs magic (high nibble) and version (low
nibble), byte 1 is the packet type code, bytes 2-5 are the timestamp as a
big-endian u32.  There is no sequence field and no length field; the
encoder computes no length. -/
theorem c3_header_layout (p : Packet) (bs : List Nat) (hp : p.pack = some bs) :
    p.header.timestamp < 2 ^ 32 ∧
    bs.take 6 = (p.header.magic % 16 * 16 + p.header.version % 16) ::
      p.header.packet_type.toCode :: be4 p.header.timestamp ∧
    6 ≤ bs.length := by
  obtain ⟨hb, rest, hpk, rfl⟩ := Packet.pack_split p bs hp
  obtain ⟨hts, hhb⟩ := PacketHeader.pack_eq _ hb hpk
  have hl := PacketHeader.pack_length _ hb hpk
  refine ⟨hts, ?_, ?_⟩
  · rw [take_exact hb rest 6 hl, hhb]
  · simp [List.length_append, hl]

/-- C3 witness: the header-layout theorem applied to a concrete CONTROL
packet (command 2, state OPEN, timestamp 7). -/
theorem c3_header_layout_witness :
    (Packet.controlP ⟨5, 1, .control, 7⟩ 2 .opened).header.timestamp < 2 ^ 32 ∧
    [81, 3, 0, 0, 0, 7, 2, 1].take 6 =
      ((Packet.controlP ⟨5, 1, .control, 7⟩ 2 .opened).header.magic % 16 * 16 +
        (Packet.controlP ⟨5, 1, .control, 7⟩ 2 .opened).header.version % 16) ::
      (Packet.controlP ⟨5, 1, .control, 7⟩ 2 .opened).header.packet_type.toCode ::
      be4 (Packet.controlP ⟨5, 1, .control, 7⟩ 2 .opened).header.timestamp ∧
    6 ≤ [81, 3, 0, 0, 0, 7, 2, 1].length :=
  c3_header_layout (.controlP ⟨5, 1, .control, 7⟩ 2 .opened) [81, 3, 0, 0, 0, 7, 2, 1]
    (by decide)

/-! ### Claim C10 — packed sizes match `get_packet_size` -/

/-- Whether a packet is a `ConfigPacket` (the only variable-length class). -/
def Packet.isConfigB : Packet → Bool
  | .configP _ _ => true
  | _ => false

/-- Byte length of the UTF-8 encoded JSON payload of a `ConfigPacket`
(0 for every other class). -/
def Packet.configLen : Packet → Nat
  | .configP _ js => js.length
  | _ => 0

/-- C10.  For every packet whose dataclass matches its header type and
whose fields are in range (so `pack` succeeds), the packed length equals
`get_packet_size` of the type for the fixed-size types, and 10 plus the
UTF-8 byte length of the JSON string for CONFIG (whose `get_packet_size`
is 0). -/
theorem c10_packet_sizes (p : Packet) (bs : List Nat)
    (hvm : p.variantMatches = true) (hp : p.pack = some bs) :
    bs.length =
      if p.isConfigB then 10 + p.configLen else get_packet_size p.header.packet_type := by
  cases p with
  | discoveryP h =>
    simp only [Packet.variantMatches, decide_eq_true_eq] at hvm
    have hl := PacketHeader.pack_length h bs hp
    simp [Packet.isConfigB, Packet.header, hvm, get_packet_size, hl]
  | simpleP h =>
    simp only [Packet.variantMatches, decide_eq_true_eq] at hvm
    have hl := PacketHeader.pack_length h bs hp
    rcases hvm with hpt | hpt | hpt | hpt | hpt <;>
      simp [Packet.isConfigB, Packet.header, hpt, get_packet_size, hl]
  | timesyncP h st =>
    simp only [Packet.variantMatches, decide_eq_true_eq] at hvm
    simp only [Packet.pack] at hp
    cases hpk : h.pack with
    | none => rw [hpk] at hp; simp at hp
    | some hb =>
      rw [hpk] at hp
      simp only [Option.bind] at hp
      split at hp
      · injection hp with hp
        subst hp
        have hl := PacketHeader.pack_length h hb hpk
        simp [Packet.isConfigB, Packet.header, hvm, get_packet_size,
          List.length_append, hl, be8]
      · exact absurd hp (by simp)
  | controlP h cid cs =>
    simp only [Packet.variantMatches, decide_eq_true_eq] at hvm
    simp only [Packet.pack] at hp
    cases hpk : h.pack with
    | none => rw [hpk] at hp; simp at hp
    | some hb =>
      rw [hpk] at hp
      simp only [Option.bind] at hp
      split at hp
      · injection hp with hp
        subst hp
        have hl := PacketHeader.pack_length h hb hpk
        simp [Packet.isConfigB, Packet.header, hvm, get_packet_size,
          List.length_append, hl]
      · exact absurd hp (by simp)
  | dataP h sid u v =>
    simp only [Packet.variantMatches, decide_eq_true_eq] at hvm
    simp only [Packet.pack] at hp
    cases hpk : h.pack with
    | none => rw [hpk] at hp; simp at hp
    | some hb =>
      rw [hpk] at hp
      simp only [Option.bind] at hp
      split at hp
      · injection hp with hp
        subst hp
        have hl := PacketHeader.pack_length h hb hpk
        simp [Packet.isConfigB, Packet.header, hvm, get_packet_size,
          List.length_append, hl, be4]
      · exact absurd hp (by simp)
  | statusP h s =>
    simp only [Packet.variantMatches, decide_eq_true_eq] at hvm
    simp only [Packet.pack] at hp
    cases hpk : h.pack with
    | none => rw [hpk] at hp; simp at hp
    | some hb =>
      rw [hpk] at hp
      simp only [Option.bind] at hp
      injection hp with hp
      subst hp
      have hl := PacketHeader.pack_length h hb hpk
      simp [Packet.isConfigB, Packet.header, hvm, get_packet_size,
        List.length_append, hl]
  | configP h js =>
    simp only [Packet.pack] at hp
    cases hpk : h.pack with
    | none => rw [hpk] at hp; simp at hp
    | some hb =>
      rw [hpk] at hp
      simp only [Option.bind] at hp
      split at hp
      · injection hp with hp
        subst hp
        have hl := PacketHeader.pack_length h hb hpk
        simp [Packet.isConfigB, Packet.configLen, List.length_append, hl, be4]
        omega
      · exact absurd hp (by simp)
  | streamStartP h f =>
    simp only [Packet.variantMatches, decide_eq_true_eq] at hvm
    simp only [Packet.pack] at hp
    cases hpk : h.pack with
    | none => rw [hpk] at hp; simp at hp
    | some hb =>
      rw [hpk] at hp
      simp only [Option.bind] at hp
      split at hp
      · injection hp with hp
        subst hp
        have hl := PacketHeader.pack_length h hb hpk
        simp [Packet.isConfigB, Packet.header, hvm, get_packet_size,
          List.length_append, hl]
      · exact absurd hp (by simp)
  | ackP h t =>
    simp only [Packet.variantMatches, decide_eq_true_eq] at hvm
    simp only [Packet.pack] at hp
    cases hpk : h.pack with
    | none => rw [hpk] at hp; simp at hp
    | some hb =>
      rw [hpk] at hp
      simp only [Option.bind] at hp
      injection hp with hp
      subst hp
      have hl := PacketHeader.pack_length h hb hpk
      rcases hvm with hpt | hpt <;>
        simp [Packet.isConfigB, Packet.header, hpt, get_packet_size,
          List.length_append, hl]

/-- C10 witness: a concrete TIMESYNC packet packs to 14 bytes, which is
`get_packet_size` for TIMESYNC. -/
theorem c10_packet_sizes_witness :
    ([81, 2, 0, 0, 0, 9, 0, 0, 0, 0, 0, 0, 0, 5] : List Nat).length =
      if (Packet.timesyncP ⟨5, 1, .timesync, 9⟩ 5 : Packet).isConfigB then
        10 + (Packet.timesyncP ⟨5, 1, .timesync, 9⟩ 5 : Packet).configLen
      else get_packet_size (Packet.timesyncP ⟨5, 1, .timesync, 9⟩ 5).header.packet_type :=
  c10_packet_sizes (.timesyncP ⟨5, 1, .timesync, 9⟩ 5)
    [81, 2, 0, 0, 0, 9, 0, 0, 0, 0, 0, 0, 0, 5] (by decide) (by decide)

/-! ### Dictionary lemmas (Python `dict` semantics) -/

theorem dictGet_cons {Dev : Type} (k : String) (p : String × Dev) (m : List (String × Dev)) :
    dictGet k (p :: m) = if p.1 = k then some p.2 else dictGet k m := by
  by_cases hpk : p.1 = k
  · simp [dictGet, List.find?, hpk]
  · simp [dictGet, List.find?, hpk]

theorem dictMem_cons {Dev : Type} (k : String) (p : String × Dev) (m : List (String × Dev)) :
    dictMem k (p :: m) = (decide (p.1 = k) || dictMem k m) := by
  simp [dictMem]

theorem dictGet_map_replace {Dev : Type} (k k2 : String) (v : Dev) (m : List (String × Dev))
    (h : k2 ≠ k) :
    dictGet k2 (m.map fun p => if p.1 = k then (k, v) else p) = dictGet k2 m := by
  induction m with
  | nil => rfl
  | cons p m ih =>
    by_cases hpk : p.1 = k
    · have hne : ¬ (k = k2) := fun hh => h hh.symm
      have hne2 : ¬ (p.1 = k2) := by rw [hpk]; exact hne
      rw [List.map_cons, if_pos hpk, dictGet_cons, dictGet_cons, if_neg hne, if_neg hne2]
      exact ih
    · rw [List.map_cons, if_neg hpk, dictGet_cons, dictGet_cons]
      by_cases hp2 : p.1 = k2
      · rw [if_pos hp2, if_pos hp2]
      · rw [if_neg hp2, if_neg hp2]
        exact ih

theorem dictGet_map_replace_self {Dev : Type} (k : String) (v : Dev)
    (m : List (String × Dev)) (hm : dictMem k m = true) :
    dictGet k (m.map fun p => if p.1 = k then (k, v) else p) = some v := by
  induction m with
  | nil => simp [dictMem] at hm
  | cons p m ih =>
    by_cases hpk : p.1 = k
    · rw [List.map_cons, if_pos hpk, dictGet_cons]
      simp
    · have hm2 : dictMem k m = true := by
        rw [dictMem_cons] at hm
        simpa [hpk] using hm
      rw [List.map_cons, if_neg hpk, dictGet_cons, if_neg hpk]
      exact ih hm2

theorem dictGet_append_right {Dev : Type} (k : String) (m m2 : List (String × Dev))
    (hm : dictMem k m = false) : dictGet k (m ++ m2) = dictGet k m2 := by
  induction m with
  | nil => rfl
  | cons p m ih =>
    rw [dictMem_cons, Bool.or_eq_false_iff] at hm
    obtain ⟨h1, h2⟩ := hm
    have hpk : ¬ p.1 = k := by simpa using h1
    rw [List.cons_append, dictGet_cons, if_neg hpk]
    exact ih h2

theorem dictGet_append_left {Dev : Type} (k : String) (m m2 : List (String × Dev)) :
    dictMem k m = true → dictGet k (m ++ m2) = dictGet k m := by
  induction m with
  | nil => intro hm; simp [dictMem] at hm
  | cons p m ih =>
    intro hm
    rw [List.cons_append, dictGet_cons, dictGet_cons]
    by_cases hpk : p.1 = k
    · rw [if_pos hpk, if_pos hpk]
    · rw [if_neg hpk, if_neg hpk]
      rw [dictMem_cons] at hm
      exact ih (by simpa [hpk] using hm)

theorem dictGet_eq_none_of_not_mem {Dev : Type} (k : String) (m : List (String × Dev))
    (h : dictMem k m = false) : dictGet k m = none := by
  induction m with
  | nil => rfl
  | cons p m ih =>
    rw [dictMem_cons, Bool.or_eq_false_iff] at h
    obtain ⟨h1, h2⟩ := h
    have hpk : ¬ p.1 = k := by simpa using h1
    rw [dictGet_cons, if_neg hpk]
    exact ih h2

theorem dictGet_dictInsert_self {Dev : Type} (k : String) (v : Dev)
    (m : List (String × Dev)) : dictGet k (dictInsert k v m) = some v := by
  by_cases hm : dictMem k m = true
  · rw [dictInsert, if_pos hm]
    exact dictGet_map_replace_self k v m hm
  · rw [Bool.not_eq_true] at hm
    rw [dictInsert, if_neg (by simp [hm]), dictGet_append_right k m [(k, v)] hm]
    simp [dictGet, List.find?]

theorem dictGet_dictInsert_other {Dev : Type} (k k2 : String) (v : Dev)
    (m : List (String × Dev)) (h : k2 ≠ k) :
    dictGet k2 (dictInsert k v m) = dictGet k2 m := by
  by_cases hm : dictMem k m = true
  · rw [dictInsert, if_pos hm]
    exact dictGet_map_replace k k2 v m h
  · rw [Bool.not_eq_true] at hm
    rw [dictInsert, if_neg (by simp [hm])]
    by_cases hm2 : dictMem k2 m = true
    · exact dictGet_append_left k2 m [(k, v)] hm2
    · rw [Bool.not_eq_true] at hm2
      rw [dictGet_append_right k2 m [(k, v)] hm2, dictGet_eq_none_of_not_mem k2 m hm2]
      have hkk : ¬ (k = k2) := fun hh => h hh.symm
      simp [dictGet, List.find?, hkk]

theorem dictGet_dictPop_self {Dev : Type} (k : String) (m : List (String × Dev)) :
    dictGet k (dictPop k m) = none := by
  induction m with
  | nil => rfl
  | cons p m ih =>
    by_cases hpk : p.1 = k
    · simpa [dictPop, List.filter_cons, hpk] using ih
    · simpa [dictPop, List.filter_cons, hpk, dictGet_cons] using ih

theorem dictGet_dictPop_other {Dev : Type} (k k2 : String) (m : List (String × Dev))
    (h : k2 ≠ k) : dictGet k2 (dictPop k m) = dictGet k2 m := by
  induction m with
  | nil => rfl
  | cons p m ih =>
    by_cases hpk : p.1 = k
    · have hk2 : ¬ (k = k2) := fun hh => h hh.symm
      simpa [dictPop, List.filter_cons, hpk, dictGet_cons, hk2] using ih
    · by_cases hp2 : p.1 = k2
      · simp [dictPop, List.filter_cons, hpk, dictGet_cons, hp2, h]
      · simpa [dictPop, List.filter_cons, hpk, dictGet_cons, hp2] using ih

/-! ### Claim C2 — framing loop -/

/-- C2 (code evaluated at the failing input).  A complete, well-formed
7-byte STATUS packet delivered as a single read chunk is a valid encoding
(`pack` produces exactly these bytes and `decode_packet` accepts them), yet
the session loop yields no packet and leaves all 7 bytes in the buffer
forever, because its inner loop only runs once 10 bytes are buffered —
although the smallest real packets are 6 and 7 bytes per
`get_packet_size`.  Framing therefore does not yield exactly N packets for
every chunking. -/
theorem c2_status_packet_withheld :
    Packet.pack (.statusP ⟨5, 1, .status, 0⟩ .active) = some [81, 18, 0, 0, 0, 0, 1] ∧
    decode_packet [81, 18, 0, 0, 0, 0, 1] = .ok (.statusP ⟨5, 1, .status, 0⟩ .active) ∧
    monitorChunks [[81, 18, 0, 0, 0, 0, 1]] = ([], [81, 18, 0, 0, 0, 0, 1]) := by
  refine ⟨by decide, by rfl, by rfl⟩

/-! ### Claim C4 — registry exclusion -/

/-- C4 (counterexample).  On the TCP acceptor path a second registration
for an already-registered address does not leave the existing entry
unchanged: `tcpListener` executes `deviceRegistry[deviceIP] = newDevice`
with no membership check, so the entry is overwritten by the new device. -/
theorem c4_counterexample :
    dictGet "10.0.0.5" (tcpListenerRegister [("10.0.0.5", 1)] "10.0.0.5" (2 : Nat)) = some 2 ∧
    (2 : Nat) ≠ 1 := by
  refine ⟨by decide, by decide⟩

/-- C4 (amended).  The direct-connect path (`connectToDevice`) refuses an
address already in the registry and leaves the registry unchanged, and
inserts the device when the address is free without touching other
entries; the TCP acceptor path (`tcpListener`) performs no such check and
always maps the address to the new device, overwriting any existing
entry. -/
theorem c4_registry_paths {Dev : Type} (reg : List (String × Dev)) (ip : String) (d : Dev) :
    (dictMem ip reg = true → connectToDeviceRegister reg ip d = reg) ∧
    (dictMem ip reg = false →
      dictGet ip (connectToDeviceRegister reg ip d) = some d ∧
      ∀ k, k ≠ ip → dictGet k (connectToDeviceRegister reg ip d) = dictGet k reg) ∧
    dictGet ip (tcpListenerRegister reg ip d) = some d := by
  refine ⟨?_, ?_, ?_⟩
  · intro hm
    rw [connectToDeviceRegister, if_pos hm]
  · intro hm
    rw [connectToDeviceRegister, if_neg (by simp [hm])]
    exact ⟨dictGet_dictInsert_self ip d reg,
      fun k hk => dictGet_dictInsert_other ip k d reg hk⟩
  · exact dictGet_dictInsert_self ip d reg

/-- C4 witness: inserting into an empty registry through the
direct-connect path makes the device retrievable. -/
theorem c4_registry_paths_witness :
    dictGet "a" (connectToDeviceRegister ([] : List (String × Nat)) "a" 7) = some 7 :=
  ((c4_registry_paths ([] : List (String × Nat)) "a" 7).2.1 (by decide)).1

/-! ### Claim C6 — command write-failure policy -/

/-- After the shared write-error handler runs, the address resolves to
nothing in the registry. -/
theorem sendErrorCleanup_get_none {Dev : Type} (reg : List (String × Dev)) (addr : String) :
    dictGet addr (sendErrorCleanup reg addr).1 = none := by
  by_cases hm : dictMem addr reg = true
  · simp only [sendErrorCleanup, hm, if_true]
    exact dictGet_dictPop_self addr reg
  · rw [Bool.not_eq_true] at hm
    simp only [sendErrorCleanup, hm, Bool.false_eq_true, if_false]
    exact dictGet_eq_none_of_not_mem addr reg hm

/-- C6 (counterexample).  The shared write-error handler of `getSingle`,
`startStreaming`, `stopStreaming` and `setControl` never cancels the
session task: its cancellation flag is `false` even when the device is
removed from the registry. -/
theorem c6_counterexample :
    (sendErrorCleanup [("a", (1 : Nat))] "a").2 ≠ true := by
  decide

/-- C6 (amended).  On a send error, `getSingle`, `startStreaming`,
`stopStreaming` and `setControl` remove the device from the registry (the
address resolves to nothing afterwards), leave every other registry entry
untouched, and do not cancel the session task; `getStatus` has no error
handling at all (the exception propagates and the registry is
unchanged). -/
theorem c6_send_error_cleanup {Dev : Type} (reg : List (String × Dev)) (addr : String) :
    dictGet addr (sendErrorCleanup reg addr).1 = none ∧
    (∀ k, k ≠ addr → dictGet k (sendErrorCleanup reg addr).1 = dictGet k reg) ∧
    (sendErrorCleanup reg addr).2 = false := by
  refine ⟨sendErrorCleanup_get_none reg addr, ?_, rfl⟩
  · intro k hk
    by_cases hm : dictMem addr reg = true
    · simp only [sendErrorCleanup, hm, if_true]
      exact dictGet_dictPop_other addr k reg hk
    · rw [Bool.not_eq_true] at hm
      simp only [sendErrorCleanup, hm, Bool.false_eq_true, if_false]

/-- C6 witness: a failing send to device `a` removes only `a`; device `b`
is still registered, and the task-cancellation flag is `false`. -/
theorem c6_send_error_cleanup_witness :
    dictGet "b" (sendErrorCleanup [("a", (1 : Nat)), ("b", 2)] "a").1 =
      dictGet "b" [("a", (1 : Nat)), ("b", 2)] :=
  (c6_send_error_cleanup [("a", (1 : Nat)), ("b", 2)] "a").2.1 "b" (by decide)

/-! ### Claim C7 — start_stream validation range -/

/-- C7 (counterexample).  The claim accepts every `1 ≤ hz ≤ 65535`, but
`startStreaming` refuses 65535 at its `Hz > 1000` guard: no packet is
sent. -/
theorem c7_counterexample :
    (startStreaming true [("a", (1 : Nat))] "a" 65535 0).1 = .refused := by
  decide

/-- C7 (amended).  `startStreaming` validates `1 ≤ hz ≤ 1000`; it sends a
STREAM_START packet whose final byte carries `hz` only for
`1 ≤ hz ≤ 255` (the protocol field is one byte), and for `hz = 0` or
`hz > 1000` it refuses at the command API, with no packet and no registry
change. -/
theorem c7_start_stream_validation {Dev : Type} (reg : List (String × Dev)) (addr : String)
    (hz ts : Nat) (hts : ts < 2 ^ 32) :
    (1 ≤ hz ∧ hz ≤ 255 →
      startStreaming true reg addr hz ts = (.sent ((81 :: 5 :: be4 ts) ++ [hz]), reg)) ∧
    (hz = 0 ∨ 1000 < hz → startStreaming true reg addr hz ts = (.refused, reg)) := by
  constructor
  · rintro ⟨h1, h2⟩
    rw [startStreaming, if_neg (by omega)]
    simp only [if_true]
    have hpk : Packet.pack
        (.streamStartP ⟨MAGIC_NUMBER, PROTOCOL_VERSION, .stream_start, ts⟩ hz) =
        some ((81 :: 5 :: be4 ts) ++ [hz]) := by
      simp only [Packet.pack, PacketHeader.pack, if_pos hts, Option.bind,
        if_pos (show hz < 256 by omega)]
      norm_num [MAGIC_NUMBER, PROTOCOL_VERSION, PacketType.toCode]
    rw [hpk]
  · intro hr
    rw [startStreaming, if_pos (by omega)]

/-- C7 witness: `hz = 100` is sent, carried in the final byte of the
packet. -/
theorem c7_start_stream_validation_witness :
    startStreaming true [("a", (1 : Nat))] "a" 100 0 =
      (.sent ((81 :: 5 :: be4 0) ++ [100]), [("a", (1 : Nat))]) :=
  (c7_start_stream_validation [("a", (1 : Nat))] "a" 100 0 (by decide)).1 (by decide)

/-! ### Claim C8 — log facade faults when uninitialized -/

/-- C8 (counterexample).  Publishing through the facade with the backing
store absent raises: `_publishLog` raises `ValueError` when `redisClient`
is `None`, so the caller does fault. -/
theorem c8_counterexample :
    publishLog none "2026-10-12 00:00:00" "log" "hello" "" =
      .error "Logger not initialized. Call initLogger() first." := by
  rfl

/-- C8 (amended).  Publishing through the facade when the logger is
uninitialized raises `ValueError` to the caller — session and command
paths are not shielded from logging failures; with an initialized client
the publish succeeds on the requested channel. -/
theorem c8_publish_requires_init (ts ch msg col : String) :
    publishLog none ts ch msg col =
      .error "Logger not initialized. Call initLogger() first." ∧
    ∀ c : Nat, ∃ s, publishLog (some c) ts ch msg col = .ok (ch, s) := by
  exact ⟨rfl, fun c => ⟨_, rfl⟩⟩

/-! ### Claim C9 — 256..1000 Hz passes validation but fails to pack -/

/-- C9 (confirmed).  For `256 ≤ hz ≤ 1000` with a live socket,
`startStreaming` passes its own validation, but packing the frequency
into the one-byte `frequency_hz` field fails, so no STREAM_START packet
is produced and the device is removed from the registry (its address
resolves to nothing afterwards) purely because of a locally-caused
encoding failure. -/
theorem c9_stream_pack_failure {Dev : Type} (reg : List (String × Dev)) (addr : String)
    (hz ts : Nat) (h1 : 256 ≤ hz) (h2 : hz ≤ 1000) :
    startStreaming true reg addr hz ts =
      (.packFailedRemoved, (sendErrorCleanup reg addr).1) ∧
    dictGet addr (startStreaming true reg addr hz ts).2 = none := by
  have hmain : startStreaming true reg addr hz ts =
      (.packFailedRemoved, (sendErrorCleanup reg addr).1) := by
    rw [startStreaming, if_neg (by omega)]
    simp only [if_true]
    have hpk : Packet.pack
        (.streamStartP ⟨MAGIC_NUMBER, PROTOCOL_VERSION, .stream_start, ts⟩ hz) = none := by
      simp [Packet.pack, PacketHeader.pack]
      omega
    rw [hpk]
  refine ⟨hmain, ?_⟩
  rw [hmain]
  exact sendErrorCleanup_get_none reg addr

/-- C9 witness: `hz = 300` against a one-entry registry — packing fails
and the registry becomes empty. -/
theorem c9_stream_pack_failure_witness :
    startStreaming true [("a", (1 : Nat))] "a" 300 0 =
      (.packFailedRemoved, (sendErrorCleanup [("a", (1 : Nat))] "a").1) ∧
    dictGet "a" (startStreaming true [("a", (1 : Nat))] "a" 300 0).2 = none :=
  c9_stream_pack_failure [("a", (1 : Nat))] "a" 300 0 (by decide) (by decide)

/-! ### Claim C5 — time-axis coherence -/

theorem maxLen_cons (a : List Nat) (ls : List (List Nat)) :
    maxLen (a :: ls) = max a.length (maxLen ls) := by
  simp [maxLen]

theorem le_maxLen (ls : List (List Nat)) (l : List Nat) (h : l ∈ ls) :
    l.length ≤ maxLen ls := by
  induction ls with
  | nil => simp at h
  | cons a ls ih =>
    rw [maxLen_cons]
    rcases List.mem_cons.mp h with rfl | hmem
    · exact Nat.le_max_left _ _
    · exact le_trans (ih hmem) (Nat.le_max_right _ _)

theorem maxLen_le (ls : List (List Nat)) (m : Nat) (h : ∀ l ∈ ls, l.length ≤ m) :
    maxLen ls ≤ m := by
  induction ls with
  | nil => simp [maxLen]
  | cons a ls ih =>
    rw [maxLen_cons]
    exact max_le (h a (List.mem_cons_self a ls)) (ih fun l hl => h l (List.mem_cons_of_mem a hl))

/-- The invariant the DATA branch actually maintains: every sensor buffer
is no longer than the shared time axis, and (unless nothing has been
recorded) some sensor buffer has exactly the time-axis length. -/
def timesCoherent (st : MonState) : Prop :=
  (∀ j (hj : j < st.sensors.length), (st.sensors.get ⟨j, hj⟩).length ≤ st.times.length) ∧
  (st.times.length = 0 ∨
    ∃ j, ∃ hj : j < st.sensors.length, (st.sensors.get ⟨j, hj⟩).length = st.times.length)

theorem timesCoherent_init (n : Nat) : timesCoherent (initMonState n) := by
  constructor
  · intro j hj
    simp [initMonState]
  · left
    simp [initMonState]

theorem timesCoherent_step (st : MonState) (h : timesCoherent st)
    (sid val t : Nat) : timesCoherent (processDataPacket st sid val t) := by
  obtain ⟨h1, h2⟩ := h
  rw [processDataPacket]
  by_cases hlt : sid < st.sensors.length
  · rw [dif_pos hlt]
    dsimp only
    set L := (st.sensors[sid]).length with hL
    have hsd : (st.sensors[sid] ++ [val]).length = L + 1 := by simp
    have hLT : L ≤ st.times.length := by
      have := h1 sid hlt
      simpa [List.get_eq_getElem] using this
    by_cases hc : st.times = [] ∨ st.times.length < (st.sensors[sid] ++ [val]).length
    · rw [if_pos hc]
      have hTL : st.times.length = L := by
        rcases hc with hnil | hlen
        · simp [hnil] at hLT ⊢
          omega
        · rw [hsd] at hlen
          omega
      constructor
      · intro j hj
        simp only [List.length_set] at hj
        simp only [List.get_eq_getElem, List.getElem_set, List.length_append]
        by_cases hji : sid = j
        · simp [hji, hTL]
          exact le_of_eq (by subst hji; exact hL.symm)
        · simp only [hji, if_false]
          have := h1 j hj
          simp only [List.get_eq_getElem] at this
          simp
          omega
      · right
        refine ⟨sid, by simpa using hlt, ?_⟩
        simp [List.get_eq_getElem, List.getElem_set, hTL]
    · rw [if_neg hc]
      push_neg at hc
      obtain ⟨hne, hge⟩ := hc
      rw [hsd] at hge
      constructor
      · intro j hj
        simp only [List.length_set] at hj
        simp only [List.get_eq_getElem, List.getElem_set]
        by_cases hji : sid = j
        · simp only [hji, if_true]
          rw [hL] at hge
          subst hji
          simpa using hge
        · simp only [hji, if_false]
          have := h1 j hj
          simpa [List.get_eq_getElem] using this
      · have hT0 : st.times.length ≠ 0 := by
          simpa [List.length_eq_zero] using hne
        rcases h2 with h0 | ⟨j, hj, hlen⟩
        · exact absurd h0 hT0
        · right
          have hji : sid ≠ j := by
            intro hji
            subst hji
            simp only [List.get_eq_getElem] at hlen
            rw [← hL] at hlen
            omega
          refine ⟨j, by simpa using hj, ?_⟩
          simp only [List.get_eq_getElem, List.getElem_set, hji, if_false]
          simpa [List.get_eq_getElem] using hlen
  · rw [dif_neg hlt]
    exact ⟨h1, h2⟩

theorem runDataPackets_coherent (steps : List (Nat × Nat × Nat)) :
    ∀ st, timesCoherent st → timesCoherent (runDataPackets st steps) := by
  induction steps with
  | nil => intro st h; exact h
  | cons p steps ih =>
    intro st h
    rw [runDataPackets, List.foldl_cons]
    exact ih _ (timesCoherent_step st h p.1 p.2.1 p.2.2)

/-- C5 (counterexample).  A fresh two-sensor monitor that processes one
DATA packet for sensor 0 ends with per-sensor buffer lengths `[1, 0]` and
a time axis of length 1, so not every sensor buffer length equals the
time-axis length. -/
theorem c5_counterexample :
    (processDataPacket (initMonState 2) 0 99 1).sensors.map List.length = [1, 0] ∧
    (processDataPacket (initMonState 2) 0 99 1).times.length = 1 := by
  refine ⟨by decide, by decide⟩

/-- C5 (amended).  After any sequence of DATA packets processed by a fresh
monitor, the shared time axis has exactly the length of the longest
per-sensor buffer (so `len(times) ≥ len(sensors[i].data)` for every `i`),
but the per-sensor lengths need not all equal `len(times)`. -/
theorem c5_time_axis (n : Nat) (steps : List (Nat × Nat × Nat)) :
    (runDataPackets (initMonState n) steps).times.length =
      maxLen (runDataPackets (initMonState n) steps).sensors := by
  obtain ⟨h1, h2⟩ := runDataPackets_coherent steps (initMonState n) (timesCoherent_init n)
  apply le_antisymm
  · rcases h2 with h0 | ⟨j, hj, hlen⟩
    · rw [h0]
      exact Nat.zero_le _
    · rw [← hlen]
      exact le_maxLen _ _ (List.get_mem _ _ _)
  · apply maxLen_le
    intro l hl
    obtain ⟨i, hi⟩ := List.mem_iff_get.mp hl
    rw [← hi]
    exact h1 i.1 i.2

end PropTeststand
